import Mathlib

/-!
Shallow embedding of `src/volume_screener.py` (a Streamlit stock volume
screener) and proofs about its computation contract.

Modelling conventions:
* pandas/numpy floating-point values are modelled as `Option ℚ`:
  `none` stands for NaN (or a non-finite value), `some q` for an ordinary
  number.  NaN comparisons (`NaN > 0`) are `False`, as in numpy.
* A per-ticker DataFrame column lookup that fails (`KeyError`) is modelled
  as an `Option`-valued lookup returning `none`; the `except KeyError`
  handler in the source catches exactly these.
* `Series.iloc[-2]` on a length-1 series raises `IndexError`, which the
  source does NOT catch; this escapes as `Except.error PyError.indexError`.
* `pandas.sort_values(by="RVol", ascending=False)` uses the default
  unstable `quicksort`; it is modelled relationally: the call may return
  any permutation of its input that is sorted non-increasingly by RVol
  (NaN last, pandas' default `na_position`).
-/

namespace VolumeScreener

/-- One OHLCV bar (one row of the per-ticker DataFrame).  Fields are
`Option ℚ`: `none` models a NaN cell. -/
structure Bar where
  openP : Option ℚ
  high : Option ℚ
  low : Option ℚ
  close : Option ℚ
  volume : Option ℚ
deriving DecidableEq, Repr

instance : Inhabited Bar := ⟨⟨none, none, none, none, none⟩⟩

/-- A bar all of whose cells are NaN (`dropna(how='all')` removes these). -/
def Bar.allNa (b : Bar) : Bool :=
  b.openP.isNone && b.high.isNone && b.low.isNone && b.close.isNone && b.volume.isNone

/-- Model of `stock_df.dropna(how='all')`: drop the rows in which every value is NaN. -/
def dropnaAll (s : List Bar) : List Bar :=
  s.filter (fun b => !b.allNa)

/-- Model of `pandas.Series.mean()` with the default `skipna=True`: the mean of the
non-NaN entries, NaN (`none`) when there are none. -/
def seriesMean (vs : List (Option ℚ)) : Option ℚ :=
  if (vs.filterMap id).isEmpty then none
  else some ((vs.filterMap id).sum / (vs.filterMap id).length)

/-- Model of `stock_df['Volume'].iloc[-21:-1]`: the Python slice `[-21:-1]` of the
cleaned series, i.e. elements `[max(0, n-21), n-1)`. -/
def priorWindow (s : List Bar) : List Bar :=
  s.dropLast.drop (s.length - 21)

/-- Line 62: `avg_vol_20d = stock_df['Volume'].iloc[-21:-1].mean()`. -/
def avg_vol_20d (s : List Bar) : Option ℚ :=
  seriesMean ((priorWindow s).map (·.volume))

/-- Lines 65-68: `rvol = current_vol / avg_vol_20d if avg_vol_20d > 0 else 0`.
A NaN average compares `False` with `> 0`, so it also takes the `else`
branch; a NaN current volume divided by a positive average stays NaN. -/
def rvolCalc (currentVol : Option ℚ) (avg : Option ℚ) : Option ℚ :=
  match avg with
  | some a =>
    if 0 < a then
      match currentVol with
      | some c => some (c / a)
      | none => none
    else some 0
  | none => some 0

/-- Lines 71-72: `pct_change = ((current_price - prev_close) / prev_close) * 100`.
`none` models a NaN (or non-finite, for `prev_close = 0`) result. -/
def pctChange (cur : Option ℚ) (prev : Option ℚ) : Option ℚ :=
  match cur, prev with
  | some c, some p => if p = 0 then none else some ((c - p) / p * 100)
  | _, _ => none

/-- One appended output record (lines 74-81). -/
structure Row where
  ticker : String
  price : Option ℚ
  changePct : Option ℚ
  currentVol : Option ℚ
  avgVol20d : Option ℚ
  rvol : Option ℚ
deriving DecidableEq, Repr

/-- The metrics row built from a cleaned, length-≥-2 series (lines 56-81):
latest bar's close and volume, 20-day trailing average volume, relative
volume, and percent change against `iloc[-2]`'s close. -/
def mkRow (t : String) (s : List Bar) : Row :=
  let latest := s.getLastD default
  let currentVol := latest.volume
  let currentPrice := latest.close
  let avg := avg_vol_20d s
  let prevClose := (s.getD (s.length - 2) default).close
  { ticker := t
    price := currentPrice
    changePct := pctChange currentPrice prevClose
    currentVol := currentVol
    avgVol20d := avg
    rvol := rvolCalc currentVol avg }

/-- The only exception that can escape the per-ticker loop body: the
`IndexError` from `stock_df['Close'].iloc[-2]` on a one-row series
(`except KeyError` does not catch it). -/
inductive PyError where
  | indexError
deriving DecidableEq, Repr

/-- One iteration of the `for ticker in ticker_list` loop (lines 41-85),
given the resolved per-ticker frame lookup.  `ok none` is `continue`
(KeyError caught, or empty cleaned frame); `error` is the uncaught
IndexError on a one-bar series. -/
def processTicker (resolve : String → Option (List Bar)) (t : String) :
    Except PyError (Option Row) :=
  match resolve t with
  | none => .ok none
  | some raw =>
    let s := dropnaAll raw
    if s.length = 0 then .ok none
    else if s.length = 1 then .error .indexError
    else .ok (some (mkRow t s))

/-- The whole loop: collect the appended rows in ticker order, aborting the
call if an iteration raises an uncaught exception. -/
def runTickers (resolve : String → Option (List Bar)) :
    List String → Except PyError (List Row)
  | [] => .ok []
  | t :: ts =>
    match processTicker resolve t with
    | .error e => .error e
    | .ok none => runTickers resolve ts
    | .ok (some r) =>
      match runTickers resolve ts with
      | .error e => .error e
      | .ok rows => .ok (r :: rows)

/-- The object returned by `yf.download` (line 36): when several tickers
were requested the frame is indexed by ticker (a missing/malformed ticker
raises KeyError, modelled as `none`); when exactly one was requested the
frame itself is that ticker's series (lines 44-47). -/
structure FetchData where
  whole : List Bar
  byTicker : String → Option (List Bar)

/-- Lines 44-47: `stock_df = df[ticker] if len(ticker_list) > 1 else df`. -/
def resolveFrame (d : FetchData) (n : Nat) (t : String) : Option (List Bar) :=
  if 1 < n then d.byTicker t else some d.whole

/-- What `get_volume_data` produces for the caller: the (unsorted) row list
and whether `st.error` was shown for a failed download. -/
structure ScreenResult where
  rows : List Row
  fetchErrorShown : Bool
deriving DecidableEq, Repr

/-- Lines 30-87: `get_volume_data(ticker_list)`.  The download is passed
in as `Except`: `error` models `yf.download` raising (caught at lines
37-39: `st.error` then `return pd.DataFrame()`). -/
def get_volume_data (dl : Except String FetchData) (tickerList : List String) :
    Except PyError ScreenResult :=
  match dl with
  | .error _ => .ok { rows := [], fetchErrorShown := true }
  | .ok d =>
    (runTickers (resolveFrame d tickerList.length) tickerList).map
      (fun rows => { rows := rows, fetchErrorShown := false })

/-! ### Ticker-string parsing (lines 20-23) -/

/-- The whitespace characters `str.strip()` removes from ASCII input. -/
def isPySpace (c : Char) : Bool :=
  c = ' ' || c = '\t' || c = '\n' || c = '\r' || c = '\x0b' || c = '\x0c'

/-- Python `x.strip()`: drop leading and trailing whitespace. -/
def pyStrip (s : String) : String :=
  ⟨((s.data.dropWhile isPySpace).reverse.dropWhile isPySpace).reverse⟩

/-- Python `x.upper()` (ASCII model of `str.upper`). -/
def pyUpper (s : String) : String :=
  ⟨s.data.map Char.toUpper⟩

/-- Line 23: `[x.strip().upper() for x in ticker_input.split(",") if x.strip()]`. -/
def tickers (tickerInput : String) : List String :=
  ((tickerInput.splitOn ",").filter (fun x => pyStrip x ≠ "")).map
    (fun x => pyUpper (pyStrip x))

/-! ### Highlight classification (lines 103-106) -/

/-- Source `highlight_spike(val)` with the captured slider threshold made an
explicit argument: green above the threshold, red above twice it, white
otherwise (lines 103-106). -/
def highlight_spike (volThreshold : ℚ) (val : ℚ) : String :=
  let color := if volThreshold < val then "lightgreen" else "white"
  let color2 := if volThreshold * 2 < val then "#ffcccb" else color
  "background-color: " ++ color2 ++ "; color: black"

/-- The three highlight tiers named by the spec. -/
inductive Tier where
  | normal
  | elevated
  | spike
deriving DecidableEq, Repr

/-- The cell style each tier renders as. -/
def Tier.css : Tier → String
  | .normal => "background-color: white; color: black"
  | .elevated => "background-color: lightgreen; color: black"
  | .spike => "background-color: #ffcccb; color: black"

/-! ### The descending RVol sort (line 100) -/

/-- Row `a` may be placed before row `b` in a frame sorted descending on
`RVol`: larger RVol first, NaN RVol last (`na_position='last'`). -/
def rvolDescPair (a b : Row) : Bool :=
  match a.rvol, b.rvol with
  | some x, some y => decide (y ≤ x)
  | some _, none => true
  | none, some _ => false
  | none, none => true

/-- A row list sorted non-increasingly by RVol (NaN last). -/
def sortedDescRVol : List Row → Bool
  | [] => true
  | [_] => true
  | a :: b :: rest => rvolDescPair a b && sortedDescRVol (b :: rest)

/-- Relational model of `results.sort_values(by="RVol", ascending=False)`:
with the default unstable `kind='quicksort'`, pandas promises only *some*
permutation of the rows that is sorted descending by the key, so the model
admits every such permutation. -/
def sortValuesOutputs (l : List Row) : List (List Row) :=
  l.permutations.filter sortedDescRVol

/-- A bar carrying only a close price and a volume, used in concrete
instantiations of the theorems below. -/
def mkBar (c v : ℚ) : Bar :=
  ⟨none, none, none, some c, some v⟩

/-- Concrete lookup: `"B"` has a two-bar series, everything else is
missing from the fetch result. -/
def witnessResolve : String → Option (List Bar) :=
  fun t => if t = "B" then some [mkBar 10 100, mkBar 11 200] else none

/-- Concrete fetch result: `"A"` has a one-bar series, `"B"` a healthy
two-bar series. -/
def cexFetch : FetchData where
  whole := []
  byTicker := fun t =>
    if t = "A" then some [mkBar 10 100]
    else if t = "B" then some [mkBar 10 100, mkBar 11 200]
    else none

/-- Concrete fetch result with a healthy two-bar series for `"A"`. -/
def dupFetch : FetchData where
  whole := []
  byTicker := fun t =>
    if t = "A" then some [mkBar 10 100, mkBar 11 200] else none

/-! ## Helper lemmas -/

theorem pyUpper_eq_empty (s : String) : pyUpper s = "" ↔ s = "" := by
  cases s with
  | mk data =>
    simp only [pyUpper, String.ext_iff]
    exact List.map_eq_nil_iff

theorem length_filterMap_volume (l : List Bar)
    (h : ∀ b ∈ l, (b.volume).isSome = true) :
    (l.filterMap (fun b => b.volume)).length = l.length := by
  induction l with
  | nil => rfl
  | cons a l ih =>
    obtain ⟨v, hv⟩ := Option.isSome_iff_exists.mp (h a (List.mem_cons_self a l))
    rw [List.filterMap_cons, hv]
    simp only [List.length_cons]
    rw [ih (fun b hb => h b (List.mem_cons_of_mem _ hb))]

/-! ## Claims -/

/-- Claim C8: when the `yf.download` call raises, `get_volume_data` catches
the exception, shows the error, and returns an empty result set: no row
for any ticker, and no crash (the call itself does not raise). -/
theorem fetch_error_yields_empty (msg : String) (tickerList : List String) :
    get_volume_data (.error msg) tickerList =
      .ok { rows := [], fetchErrorShown := true } := rfl

/-- Claim C3: `highlight_spike` classifies each RVol value into exactly one
of three tiers: `normal` (white) for `val ≤ T`, `elevated` (green) for
`T < val ≤ 2T`, `spike` (red) for `val > 2T`; in particular `val = 2T` is
elevated and `val = T` is normal. -/
theorem highlight_spike_tiers (T val : ℚ) (hT : 1 ≤ T) :
    (highlight_spike T val = Tier.normal.css ∨
      highlight_spike T val = Tier.elevated.css ∨
      highlight_spike T val = Tier.spike.css) ∧
    (val ≤ T → highlight_spike T val = Tier.normal.css) ∧
    (T < val → val ≤ 2 * T → highlight_spike T val = Tier.elevated.css) ∧
    (2 * T < val → highlight_spike T val = Tier.spike.css) := by
  simp only [highlight_spike, Tier.css]
  split_ifs with h1 h2 <;>
    refine ⟨?_, fun hv => ?_, fun hv1 hv2 => ?_, fun hv => ?_⟩ <;>
    first
      | rfl
      | (left; rfl)
      | (right; left; rfl)
      | (right; right; rfl)
      | (exfalso; linarith)

/-- Witness for `highlight_spike_tiers` at `T = 3/2`, `val = 3 = 2T`
(the boundary case the claim singles out: elevated, not spike). -/
theorem highlight_spike_tiers_witness :
    (1 ≤ (3 / 2 : ℚ)) ∧
    ((highlight_spike (3 / 2) 3 = Tier.normal.css ∨
       highlight_spike (3 / 2) 3 = Tier.elevated.css ∨
       highlight_spike (3 / 2) 3 = Tier.spike.css) ∧
     ((3 : ℚ) ≤ 3 / 2 → highlight_spike (3 / 2) 3 = Tier.normal.css) ∧
     ((3 / 2 : ℚ) < 3 → (3 : ℚ) ≤ 2 * (3 / 2) →
       highlight_spike (3 / 2) 3 = Tier.elevated.css) ∧
     (2 * (3 / 2 : ℚ) < 3 → highlight_spike (3 / 2) 3 = Tier.spike.css)) :=
  ⟨by norm_num, highlight_spike_tiers (3 / 2) 3 (by norm_num)⟩

/-- Claim C2: when the 20-day average volume is zero or undefined (NaN), the
relative volume placed in the row is the sentinel `0` — the division is
not taken and no NaN reaches the output field. -/
theorem rvol_zero_on_degenerate_avg (t : String) (s : List Bar)
    (h : avg_vol_20d s = some 0 ∨ avg_vol_20d s = none) :
    (mkRow t s).rvol = some 0 ∧ ((mkRow t s).rvol).isSome = true := by
  have hr : (mkRow t s).rvol =
      rvolCalc ((s.getLastD default).volume) (avg_vol_20d s) := rfl
  rcases h with h | h <;> rw [hr, h] <;> simp [rvolCalc]

/-- Witness for `rvol_zero_on_degenerate_avg`: a two-bar series whose only
prior bar has zero volume, so the 20-day average is `0`. -/
theorem rvol_zero_on_degenerate_avg_witness :
    (avg_vol_20d [mkBar 1 0, mkBar 2 5] = some 0 ∨
      avg_vol_20d [mkBar 1 0, mkBar 2 5] = none) ∧
    ((mkRow "A" [mkBar 1 0, mkBar 2 5]).rvol = some 0 ∧
      ((mkRow "A" [mkBar 1 0, mkBar 2 5]).rvol).isSome = true) :=
  ⟨Or.inl (by simp [avg_vol_20d, seriesMean, priorWindow, mkBar]),
    rvol_zero_on_degenerate_avg "A" _
      (Or.inl (by simp [avg_vol_20d, seriesMean, priorWindow, mkBar]))⟩

/-- Claim C9: the parsed ticker list is exactly the comma-separated entries
of the input, each trimmed and upper-cased, with entries empty after
trimming dropped, in original order; every parsed ticker is non-empty. -/
theorem tickers_parse (tickerInput : String) :
    tickers tickerInput =
      ((tickerInput.splitOn ",").map (fun x => pyUpper (pyStrip x))).filter
        (fun t => t ≠ "") ∧
    ∀ t ∈ tickers tickerInput, t ≠ "" := by
  constructor
  · rw [List.filter_map]
    unfold tickers
    congr 1
    apply List.filter_congr
    intro x _
    simp only [Function.comp_apply]
    rw [decide_eq_decide]
    rw [not_iff_not]
    exact Iff.comm.mp (pyUpper_eq_empty (pyStrip x))
  · intro t ht
    unfold tickers at ht
    simp only [List.mem_map, List.mem_filter] at ht
    obtain ⟨x, ⟨_, hne⟩, rfl⟩ := ht
    rw [Ne, pyUpper_eq_empty]
    simpa using hne

/-- Witness for `tickers_parse` on a concrete messy input string. -/
theorem tickers_parse_witness :
    tickers " amd, NvDa ,, x " =
      ((" amd, NvDa ,, x ".splitOn ",").map (fun x => pyUpper (pyStrip x))).filter
        (fun t => t ≠ "") ∧
    ∀ t ∈ tickers " amd, NvDa ,, x ", t ≠ "" :=
  tickers_parse " amd, NvDa ,, x "

/-- Claim C1: for a cleaned series with at least 21 bars (all volumes
present), the averaging window has exactly 20 bars, those 20 bars sit
immediately before the latest bar (which is excluded), and the computed
20-day average volume is the arithmetic mean of their volumes. -/
theorem avg_vol_20d_window (s : List Bar) (hne : s ≠ []) (h21 : 21 ≤ s.length)
    (hv : ∀ b ∈ s, (b.volume).isSome = true) :
    (priorWindow s).length = 20 ∧
    s.take (s.length - 21) ++ priorWindow s ++ [s.getLast hne] = s ∧
    avg_vol_20d s =
      some (((priorWindow s).filterMap (fun b => b.volume)).sum / 20) := by
  have hlen : (priorWindow s).length = 20 := by
    simp only [priorWindow, List.length_drop, List.length_dropLast]
    omega
  have hsub : priorWindow s ⊆ s := fun b hb =>
    (List.dropLast_sublist s).subset ((List.drop_sublist _ _).subset hb)
  have hfm : ((priorWindow s).map (fun b => b.volume)).filterMap id =
      (priorWindow s).filterMap (fun b => b.volume) := by
    rw [List.filterMap_map]; rfl
  have hlen2 : ((priorWindow s).filterMap (fun b => b.volume)).length = 20 := by
    rw [length_filterMap_volume _ (fun b hb => hv b (hsub hb)), hlen]
  refine ⟨hlen, ?_, ?_⟩
  · have htk : s.take (s.length - 21) = s.dropLast.take (s.length - 21) := by
      rw [List.dropLast_eq_take, List.take_take, inf_of_le_left (by omega)]
    have hd : s.take (s.length - 21) ++ priorWindow s = s.dropLast := by
      rw [htk]; exact List.take_append_drop _ _
    rw [hd]
    exact List.dropLast_append_getLast hne
  · unfold avg_vol_20d seriesMean
    rw [hfm, hlen2]
    have hemp : ((priorWindow s).filterMap (fun b => b.volume)).isEmpty = false := by
      rcases h : (priorWindow s).filterMap (fun b => b.volume) with _ | ⟨a, l⟩
      · rw [h] at hlen2; simp at hlen2
      · rw [h]; rfl
    rw [hemp]
    norm_num

/-- Claim C7: for a cleaned series with at most 20 bars, the averaging
window is all bars before the latest; with at least one prior bar the
average is their mean, and with zero prior bars (a one-bar series) the
average is NaN and the relative-volume ratio computed from it is the
sentinel `0`. -/
theorem avg_vol_20d_short_series (s : List Bar) (_hne : s ≠ [])
    (hlen : s.length ≤ 20) (hv : ∀ b ∈ s, (b.volume).isSome = true) :
    priorWindow s = s.dropLast ∧
    (2 ≤ s.length →
      avg_vol_20d s =
        some ((s.dropLast.filterMap (fun b => b.volume)).sum /
          ((s.length - 1 : ℕ) : ℚ))) ∧
    (s.length = 1 →
      avg_vol_20d s = none ∧
      rvolCalc ((s.getLastD default).volume) (avg_vol_20d s) = some 0) := by
  have hpw : priorWindow s = s.dropLast := by
    unfold priorWindow
    have h0 : s.length - 21 = 0 := by omega
    rw [h0, List.drop_zero]
  have hfm : (s.dropLast.map (fun b => b.volume)).filterMap id =
      s.dropLast.filterMap (fun b => b.volume) := by
    rw [List.filterMap_map]; rfl
  have hlen2 : (s.dropLast.filterMap (fun b => b.volume)).length =
      s.length - 1 := by
    rw [length_filterMap_volume _
      (fun b hb => hv b ((List.dropLast_sublist s).subset hb))]
    exact List.length_dropLast s
  refine ⟨hpw, fun h2 => ?_, fun h1 => ?_⟩
  · unfold avg_vol_20d seriesMean
    rw [hpw, hfm, hlen2]
    have hemp : (s.dropLast.filterMap (fun b => b.volume)).isEmpty = false := by
      rcases h : s.dropLast.filterMap (fun b => b.volume) with _ | ⟨a, l⟩
      · rw [h] at hlen2; simp at hlen2; omega
      · rw [h]; rfl
    rw [hemp]
    norm_num
  · have hd : s.dropLast = [] := by
      have := List.length_dropLast s
      rw [h1] at this
      exact List.length_eq_zero.mp this
    have ha : avg_vol_20d s = none := by
      unfold avg_vol_20d seriesMean
      rw [hpw, hd]
      rfl
    exact ⟨ha, by rw [ha]; rfl⟩

/-- Witness for `avg_vol_20d_window`: 21 identical bars with volume 100. -/
theorem avg_vol_20d_window_witness :
    (List.replicate 21 (mkBar 10 100) ≠ []) ∧
    (21 ≤ (List.replicate 21 (mkBar 10 100)).length) ∧
    (∀ b ∈ List.replicate 21 (mkBar 10 100), (b.volume).isSome = true) ∧
    ((priorWindow (List.replicate 21 (mkBar 10 100))).length = 20 ∧
      (List.replicate 21 (mkBar 10 100)).take
          ((List.replicate 21 (mkBar 10 100)).length - 21) ++
        priorWindow (List.replicate 21 (mkBar 10 100)) ++
        [(List.replicate 21 (mkBar 10 100)).getLast (by simp)] =
        List.replicate 21 (mkBar 10 100) ∧
      avg_vol_20d (List.replicate 21 (mkBar 10 100)) =
        some (((priorWindow (List.replicate 21 (mkBar 10 100))).filterMap
          (fun b => b.volume)).sum / 20)) :=
  ⟨by simp, by simp, by simp [mkBar], avg_vol_20d_window _ (by simp) (by simp)
    (by simp [mkBar])⟩

/-- Witness for `avg_vol_20d_short_series`: a two-bar series. -/
theorem avg_vol_20d_short_series_witness :
    ([mkBar 1 2, mkBar 3 4] ≠ []) ∧
    (([mkBar 1 2, mkBar 3 4] : List Bar).length ≤ 20) ∧
    (∀ b ∈ [mkBar 1 2, mkBar 3 4], (b.volume).isSome = true) ∧
    (priorWindow [mkBar 1 2, mkBar 3 4] = ([mkBar 1 2, mkBar 3 4] : List Bar).dropLast ∧
      (2 ≤ ([mkBar 1 2, mkBar 3 4] : List Bar).length →
        avg_vol_20d [mkBar 1 2, mkBar 3 4] =
          some ((([mkBar 1 2, mkBar 3 4] : List Bar).dropLast.filterMap
            (fun b => b.volume)).sum /
            ((([mkBar 1 2, mkBar 3 4] : List Bar).length - 1 : ℕ) : ℚ))) ∧
      (([mkBar 1 2, mkBar 3 4] : List Bar).length = 1 →
        avg_vol_20d [mkBar 1 2, mkBar 3 4] = none ∧
        rvolCalc ((([mkBar 1 2, mkBar 3 4] : List Bar).getLastD default).volume)
          (avg_vol_20d [mkBar 1 2, mkBar 3 4]) = some 0)) :=
  ⟨by simp, by simp, by simp [mkBar],
    avg_vol_20d_short_series _ (by simp) (by simp) (by simp [mkBar])⟩

theorem runTickers_cons (resolve : String → Option (List Bar)) (a : String)
    (ts : List String) :
    runTickers resolve (a :: ts) =
      match processTicker resolve a with
      | .error e => .error e
      | .ok none => runTickers resolve ts
      | .ok (some r) =>
        match runTickers resolve ts with
        | .error e => .error e
        | .ok rows => .ok (r :: rows) := rfl

theorem processTicker_ok_some_ticker (resolve : String → Option (List Bar))
    (a : String) (r : Row) (h : processTicker resolve a = .ok (some r)) :
    r.ticker = a := by
  unfold processTicker at h
  cases hra : resolve a with
  | none => rw [hra] at h; simp at h
  | some raw =>
    rw [hra] at h
    by_cases h0 : (dropnaAll raw).length = 0
    · simp [h0] at h
    · by_cases h1 : (dropnaAll raw).length = 1
      · simp [h0, h1] at h
      · simp [h0, h1] at h
        rw [← h]
        rfl

/-- Claim C5: a ticker whose frame lookup fails (KeyError) or whose cleaned
series is empty is skipped — no row, no error — and its presence in the
ticker list does not change what the loop computes for the other
tickers. -/
theorem bad_ticker_skipped (resolve : String → Option (List Bar)) (t : String)
    (h : resolve t = none ∨ ∃ raw, resolve t = some raw ∧ dropnaAll raw = []) :
    processTicker resolve t = .ok none ∧
    ∀ pre post : List String,
      runTickers resolve (pre ++ t :: post) = runTickers resolve (pre ++ post) := by
  have hp : processTicker resolve t = .ok none := by
    rcases h with h | ⟨raw, hr, hc⟩
    · unfold processTicker; rw [h]
    · unfold processTicker; rw [hr]; simp [hc]
  refine ⟨hp, fun pre post => ?_⟩
  induction pre with
  | nil =>
    simp only [List.nil_append]
    rw [runTickers_cons, hp]
  | cons a pre ih =>
    simp only [List.cons_append]
    rw [runTickers_cons, runTickers_cons, ih]

/-- Witness for `bad_ticker_skipped`: `"ZZZ"` is absent from the fetch
result, `"B"` has a two-bar series. -/
theorem bad_ticker_skipped_witness :
    (witnessResolve "ZZZ" = none ∨
      ∃ raw, witnessResolve "ZZZ" = some raw ∧ dropnaAll raw = []) ∧
    (processTicker witnessResolve "ZZZ" = .ok none ∧
      runTickers witnessResolve (["B"] ++ "ZZZ" :: []) =
        runTickers witnessResolve (["B"] ++ [])) :=
  ⟨Or.inl rfl,
    (bad_ticker_skipped witnessResolve "ZZZ" (Or.inl rfl)).1,
    (bad_ticker_skipped witnessResolve "ZZZ" (Or.inl rfl)).2 ["B"] []⟩

/-- Claim C6, counterexample: a non-empty cleaned series with exactly one
bar (no bar before the latest) does *not* produce an output row: the
`iloc[-2]` lookup raises an IndexError that `except KeyError` does not
catch, so the whole `get_volume_data` call aborts and no rows at all are
returned — not even for the healthy ticker `"B"`. -/
theorem one_bar_no_row_emitted :
    (dropnaAll [mkBar 10 100]).length = 1 ∧
    get_volume_data (.ok cexFetch) ["A", "B"] = .error .indexError :=
  ⟨rfl, rfl⟩

/-- Claim C6, amended: for a ticker whose cleaned series has exactly one
bar, the loop body raises the uncaught IndexError, so no metrics row is
emitted for it and the whole batch call fails. -/
theorem one_bar_series_aborts (resolve : String → Option (List Bar))
    (t : String) (raw : List Bar) (h1 : resolve t = some raw)
    (h2 : (dropnaAll raw).length = 1) :
    processTicker resolve t = .error .indexError ∧
    ∀ ts : List String, t ∈ ts →
      ∀ rows : List Row, runTickers resolve ts ≠ .ok rows := by
  have hp : processTicker resolve t = .error .indexError := by
    unfold processTicker; rw [h1]; simp [h2]
  refine ⟨hp, fun ts hmem rows => ?_⟩
  induction ts generalizing rows with
  | nil => cases hmem
  | cons a ts ih =>
    rcases List.mem_cons.mp hmem with rfl | hmem'
    · rw [runTickers_cons, hp]
      exact fun hc => Except.noConfusion hc
    · rw [runTickers_cons]
      rcases hpa : processTicker resolve a with e | o
      · exact fun hc => Except.noConfusion hc
      · cases o with
        | none => exact ih hmem' rows
        | some r =>
          rcases hrt : runTickers resolve ts with e | rows0
          · exact fun hc => Except.noConfusion hc
          · exact absurd hrt (ih hmem' rows0)

/-- Witness for `one_bar_series_aborts` on the concrete fetch result of
`one_bar_no_row_emitted`. -/
theorem one_bar_series_aborts_witness :
    (cexFetch.byTicker "A" = some [mkBar 10 100]) ∧
    ((dropnaAll [mkBar 10 100]).length = 1) ∧
    (processTicker cexFetch.byTicker "A" = .error .indexError ∧
      ∀ rows : List Row,
        runTickers cexFetch.byTicker ["A", "B"] ≠ .ok rows) :=
  ⟨rfl, rfl,
    (one_bar_series_aborts cexFetch.byTicker "A" [mkBar 10 100] rfl rfl).1,
    fun rows =>
      (one_bar_series_aborts cexFetch.byTicker "A" [mkBar 10 100] rfl rfl).2
        ["A", "B"] (by simp) rows⟩

theorem runTickers_ticker_count (resolve : String → Option (List Bar))
    (ts : List String) (rows : List Row)
    (h : runTickers resolve ts = .ok rows) :
    (∀ r ∈ rows, r.ticker ∈ ts) ∧
    ∀ t : String,
      (rows.filter (fun r => r.ticker = t)).length ≤ ts.count t := by
  induction ts generalizing rows with
  | nil =>
    injection h with h'
    subst h'
    simp
  | cons a ts ih =>
    rw [runTickers_cons] at h
    rcases hpa : processTicker resolve a with e | o
    · rw [hpa] at h; cases h
    · rw [hpa] at h
      cases o with
      | none =>
        obtain ⟨ihmem, ihcount⟩ := ih rows h
        refine ⟨fun r hr => List.mem_cons_of_mem _ (ihmem r hr), fun t => ?_⟩
        refine le_trans (ihcount t) ?_
        rw [List.count_cons]
        split <;> omega
      | some r =>
        rcases hrt : runTickers resolve ts with e | rows0 <;> rw [hrt] at h
        · cases h
        · injection h with h'
          subst h'
          have hticker : r.ticker = a :=
            processTicker_ok_some_ticker resolve a r hpa
          obtain ⟨ihmem, ihcount⟩ := ih rows0 hrt
          constructor
          · intro r' hr'
            rcases List.mem_cons.mp hr' with rfl | hr''
            · rw [hticker]; exact List.mem_cons_self a ts
            · exact List.mem_cons_of_mem _ (ihmem r' hr'')
          · intro t
            by_cases hpt : r.ticker = t
            · have hat : a = t := hticker ▸ hpt
              have := ihcount t
              simp only [List.filter_cons, List.count_cons, hpt]
              simp [hat]
              omega
            · have hat : ¬ a = t := fun hh => hpt (by rw [hticker, hh])
              have := ihcount t
              simp only [List.filter_cons, List.count_cons]
              simp [hpt, hat]
              omega

/-- Claim C10, amended: every row in the computed (pre-sort) result has a
`Ticker` drawn from the input list, and a ticker contributes at most as
many rows as it has occurrences in the input list — hence at most one row
when the input list is duplicate-free. -/
theorem output_tickers_bounded (dl : Except String FetchData)
    (ts : List String) (res : ScreenResult)
    (h : get_volume_data dl ts = .ok res) :
    (∀ r ∈ res.rows, r.ticker ∈ ts) ∧
    ∀ t : String,
      (res.rows.filter (fun r => r.ticker = t)).length ≤ ts.count t := by
  cases dl with
  | error msg =>
    replace h : (Except.ok { rows := ([] : List Row), fetchErrorShown := true } :
        Except PyError ScreenResult) = .ok res := h
    injection h with h'
    subst h'
    simp
  | ok d =>
    replace h : (runTickers (resolveFrame d ts.length) ts).map
        (fun rows => ({ rows := rows, fetchErrorShown := false } :
          ScreenResult)) = .ok res := h
    rcases hrt : runTickers (resolveFrame d ts.length) ts with e | rows <;>
      rw [hrt] at h
    · simp [Except.map] at h
    · simp only [Except.map] at h
      injection h with h'
      subst h'
      exact runTickers_ticker_count _ ts rows hrt

/-- Witness for `output_tickers_bounded` on a concrete healthy fetch. -/
theorem output_tickers_bounded_witness :
    (get_volume_data (.ok dupFetch) ["A", "A"] =
      .ok { rows := [mkRow "A" [mkBar 10 100, mkBar 11 200],
                     mkRow "A" [mkBar 10 100, mkBar 11 200]],
            fetchErrorShown := false }) ∧
    ((∀ r ∈ ({ rows := [mkRow "A" [mkBar 10 100, mkBar 11 200],
                        mkRow "A" [mkBar 10 100, mkBar 11 200]],
               fetchErrorShown := false } : ScreenResult).rows,
        r.ticker ∈ ["A", "A"]) ∧
      ∀ t : String,
        (({ rows := [mkRow "A" [mkBar 10 100, mkBar 11 200],
                     mkRow "A" [mkBar 10 100, mkBar 11 200]],
            fetchErrorShown := false } : ScreenResult).rows.filter
          (fun r => r.ticker = t)).length ≤ (["A", "A"] : List String).count t) :=
  ⟨rfl, output_tickers_bounded (.ok dupFetch) ["A", "A"] _ rfl⟩

/-- Claim C10, counterexample: the parsed ticker list is not deduplicated,
so with input list `["A", "A"]` the single ticker `"A"` contributes two
rows to the output — "at most one row per input ticker" fails. -/
theorem duplicate_ticker_two_rows :
    get_volume_data (.ok dupFetch) ["A", "A"] =
      .ok { rows := [mkRow "A" [mkBar 10 100, mkBar 11 200],
                     mkRow "A" [mkBar 10 100, mkBar 11 200]],
            fetchErrorShown := false } ∧
    ¬ (([mkRow "A" [mkBar 10 100, mkBar 11 200],
         mkRow "A" [mkBar 10 100, mkBar 11 200]].filter
          (fun r => r.ticker = "A")).length ≤ 1) :=
  ⟨rfl, by decide⟩

/-- The ordering `sort_values(by="RVol", ascending=False)` sorts by, as a
`Prop`-valued relation. -/
def RowDescLE (a b : Row) : Prop :=
  rvolDescPair a b = true

instance : DecidableRel RowDescLE := fun a b =>
  inferInstanceAs (Decidable (rvolDescPair a b = true))

instance : IsTotal Row RowDescLE := by
  constructor
  intro a b
  unfold RowDescLE rvolDescPair
  rcases a.rvol with _ | x <;> rcases b.rvol with _ | y
  all_goals simp
  exact le_total y x

instance : IsTrans Row RowDescLE := by
  constructor
  intro a b c hab hbc
  unfold RowDescLE rvolDescPair at hab hbc ⊢
  rcases ha : a.rvol with _ | x <;> rcases hb : b.rvol with _ | y <;>
    rcases hc : c.rvol with _ | z
  all_goals simp_all
  linarith

theorem sortedDescRVol_iff_chain' (l : List Row) :
    sortedDescRVol l = true ↔
      List.Chain' (fun a b => rvolDescPair a b = true) l := by
  induction l with
  | nil => simp [sortedDescRVol]
  | cons a l ih =>
    cases l with
    | nil => simp [sortedDescRVol]
    | cons b l' =>
      rw [sortedDescRVol, Bool.and_eq_true, List.chain'_cons, ih]

/-- A row with relative volume 2, as produced for a ticker whose latest
volume is twice its prior average. -/
def tiedRow (t : String) : Row :=
  { ticker := t, price := some 10, changePct := some 0,
    currentVol := some 200, avgVol20d := some 100, rvol := some 2 }

/-- Claim C4, counterexample: two distinct rows with equal RVol; the
descending `sort_values` contract (default unstable quicksort — pandas
documents that only `mergesort`/`stable` kinds are stable) admits the
output in which their original order is swapped, so tie order is not
preserved. -/
theorem sort_ties_not_preserved :
    (tiedRow "A").rvol = (tiedRow "B").rvol ∧
    tiedRow "A" ≠ tiedRow "B" ∧
    [tiedRow "B", tiedRow "A"] ∈ sortValuesOutputs [tiedRow "A", tiedRow "B"] := by
  refine ⟨rfl, by decide, ?_⟩
  rw [sortValuesOutputs, List.mem_filter]
  exact ⟨List.mem_permutations.mpr (List.Perm.swap _ _ _), by decide⟩

/-- Claim C4, amended: every output the sort may produce is a permutation
of the computed rows ordered non-increasingly by RVol, and such an output
always exists; the relative order of rows with equal RVol is not
guaranteed. -/
theorem sort_values_model (l : List Row) :
    (∃ out, out ∈ sortValuesOutputs l) ∧
    ∀ out ∈ sortValuesOutputs l,
      out.Perm l ∧ List.Chain' (fun a b => rvolDescPair a b = true) out := by
  constructor
  · refine ⟨List.insertionSort RowDescLE l, ?_⟩
    rw [sortValuesOutputs, List.mem_filter]
    constructor
    · exact List.mem_permutations.mpr (List.perm_insertionSort _ l)
    · rw [sortedDescRVol_iff_chain']
      exact (List.sorted_insertionSort RowDescLE l).chain'
  · intro out hout
    rw [sortValuesOutputs, List.mem_filter] at hout
    exact ⟨List.mem_permutations.mp hout.1,
      (sortedDescRVol_iff_chain' out).mp hout.2⟩

/-- Witness for `sort_values_model` on a one-row result set. -/
theorem sort_values_model_witness :
    (∃ out, out ∈ sortValuesOutputs [tiedRow "A"]) ∧
    ([tiedRow "A"] ∈ sortValuesOutputs [tiedRow "A"] →
      ([tiedRow "A"] : List Row).Perm [tiedRow "A"] ∧
      List.Chain' (fun a b => rvolDescPair a b = true) [tiedRow "A"]) :=
  ⟨(sort_values_model [tiedRow "A"]).1,
    fun h => (sort_values_model [tiedRow "A"]).2 [tiedRow "A"] h⟩

end VolumeScreener
